import Mathlib

/-!
Verification development for the vimish modal-editing engine.

The definitions below are a shallow embedding of the TypeScript sources:
* `src/unnamed/part_001` (common.ts): `VimMode`, `VimDocument`, `Position`,
  `getCharacterType`, `getWord`, `getWORD`, and the action/motion data types;
* `src/unnamed/part_000` (motion.ts): `calculateMotion`;
* `src/src/vim/vim.ts`: the `Vim` class (key parser `getNormalCommand`,
  `keyOperatorPending`, `performOperation`, `calculateObject`,
  `findNextChar`, `findLeftRightRange`, `jumpKey`, `setToLetterGroups`,
  `documentChanged`, the mark/register stores).

The host text buffer is modelled as a `List Char`; lines are separated by
the newline character.  JavaScript `null`/`undefined` results are modelled
with `Option`; a JavaScript `TypeError` (a property access on `null`,
caught by the top-level `key` handler in the source) is modelled by an
explicit `thrown` constructor of the relevant result type.
-/

namespace Vimish

/-! ## Document model

Models the host `vscode.TextDocument` operations that `VimDocument`
(part_001) consumes: offset/position conversion with vscode's clamping
behaviour, line metadata, and line counts. -/

/-- Start index of the line containing index `i`: the largest `j ≤ i` with
`j = 0` or a newline at `j - 1`. -/
def lineStart (t : List Char) : Nat → Nat
  | 0 => 0
  | i + 1 => if t.get? i = some '\n' then i + 1 else lineStart t i

/-- Number of characters before the next newline (or end of list). -/
def restLineLen : List Char → Nat
  | [] => 0
  | c :: cs => if c = '\n' then 0 else restLineLen cs + 1

/-- Index of the end of the line containing `i` (the newline's index, or
`t.length` on the last line). -/
def lineEnd (t : List Char) (i : Nat) : Nat := i + restLineLen (t.drop i)

/-- Column of index `i` (vscode `positionAt(i).character`). -/
def colOf (t : List Char) (i : Nat) : Nat := i - lineStart t i

/-- Length of the line containing index `i`, excluding the newline. -/
def lineLenAt (t : List Char) (i : Nat) : Nat := lineEnd t i - lineStart t i

/-- Zero-based line number of index `i` (vscode `positionAt(i).line`). -/
def lineOf (t : List Char) (i : Nat) : Nat := (t.take i).count '\n'

/-- vscode `TextDocument.lineCount`: one more than the number of newlines. -/
def lineCount (t : List Char) : Nat := t.count '\n' + 1

/-- Start index of line number `l` (meaningful for `l < lineCount t`). -/
def lineStartOfLine (t : List Char) : Nat → Nat
  | 0 => 0
  | l + 1 => lineEnd t (lineStartOfLine t l) + 1

/-- Length of line number `l`, excluding the newline. -/
def lineLenOfLine (t : List Char) (l : Nat) : Nat :=
  restLineLen (t.drop (lineStartOfLine t l))

/-- The characters of line number `l` (newline excluded). -/
def lineChars (t : List Char) (l : Nat) : List Char :=
  (t.drop (lineStartOfLine t l)).take (lineLenOfLine t l)

/-- JavaScript `/\s/` on the characters this engine sees (ASCII whitespace). -/
def isWS (c : Char) : Bool :=
  c = ' ' ∨ c = '\t' ∨ c = '\n' ∨ c = '\r' ∨ c = '\x0b' ∨ c = '\x0c'

/-- Length of the leading whitespace run of a line's characters. -/
def wsLeadLen : List Char → Nat
  | [] => 0
  | c :: cs => if isWS c then wsLeadLen cs + 1 else 0

/-- `Position` of part_001: an `(absolute index, line, column)` triple. -/
structure Pos where
  index : Nat
  line : Nat
  col : Nat
deriving DecidableEq, Repr

/-- vscode line clamping used by `validatePosition`/`offsetAt`. -/
def clampLine (t : List Char) (l : Int) : Nat :=
  min (max l 0).toNat (lineCount t - 1)

/-- `VimDocument.positionFromLine` (part_001): `offsetAt` with vscode's
clamping of the line to the document and the column to the line length,
followed by `positionAt` of the resulting index. -/
def positionFromLine (t : List Char) (l c : Int) : Pos :=
  let lc := clampLine t l
  let cc := min (max c 0).toNat (lineLenOfLine t lc)
  { index := lineStartOfLine t lc + cc, line := lc, col := cc }

/-- `VimDocument.positionFromIndex` (part_001): `positionAt` clamps the
index into `[0, length]`. -/
def positionFromIndex (t : List Char) (i : Nat) : Pos :=
  let j := min i t.length
  { index := j, line := lineOf t j, col := colOf t j }

/-- `Position.translate` (part_001, lines 135-146).  `fix = false` returns
`none` when the translated position does not land exactly where requested. -/
def translate (t : List Char) (p : Pos) (lineDelta colDelta : Int) (fix : Bool) : Option Pos :=
  if (p.line : Int) + lineDelta < 0 then
    if fix then some ⟨0, 0, 0⟩ else none
  else
    let pos := positionFromLine t ((p.line : Int) + lineDelta) ((p.col : Int) + colDelta)
    if ¬fix ∧ ((pos.line : Int) ≠ (p.line : Int) + lineDelta ∨ (pos.col : Int) ≠ (p.col : Int) + colDelta) then
      none
    else some pos

/-- A `vscode.TextLine` as consumed by the engine.  `len` is the line length
excluding the newline; since lines start at column 0, `range.end.character`
of the source equals `len`.  `firstNonWS` is
`firstNonWhitespaceCharacterIndex` (the line length for all-blank lines). -/
structure TextLine where
  lineNumber : Nat
  startIdx : Nat
  len : Nat
  firstNonWS : Nat
deriving DecidableEq, Repr

/-- Build the `TextLine` record for line number `l`. -/
def mkLine (t : List Char) (l : Nat) : TextLine :=
  { lineNumber := l
    startIdx := lineStartOfLine t l
    len := lineLenOfLine t l
    firstNonWS := wsLeadLen (lineChars t l) }

/-- `VimDocument.getLine` (part_001): vscode `lineAt(n)` throws on an
out-of-range line number, modelled by `none`. -/
def getLine (t : List Char) (n : Int) : Option TextLine :=
  if 0 ≤ n ∧ n < (lineCount t : Int) then some (mkLine t n.toNat) else none

/-- `VimDocument.getLineByIndex` (part_001): `lineAt(positionAt(index))`;
total because `positionAt` clamps. -/
def getLineByIndex (t : List Char) (i : Nat) : TextLine :=
  mkLine t (lineOf t (min i t.length))

/-- Clamp a JavaScript index to a valid offset, as vscode `positionAt`
does for edit endpoints. -/
def idxClamp (t : List Char) (i : Int) : Nat := min (max i 0).toNat t.length

/-- `text.substring(a, b)` for already-ordered clamped endpoints. -/
def slice (t : List Char) (a b : Nat) : List Char := (t.take b).drop a

/-! ## Word classifier and word boundaries (part_001) -/

/-- `WordType` of part_001. -/
inductive WordType
  | Text
  | Symbols
  | Whitespace
deriving DecidableEq, Repr

/-- JavaScript `/\w/` (ASCII word character). -/
def isWordChar (c : Char) : Bool :=
  ('a' ≤ c ∧ c ≤ 'z') ∨ ('A' ≤ c ∧ c ≤ 'Z') ∨ ('0' ≤ c ∧ c ≤ '9') ∨ c = '_'

/-- `getCharacterType` of part_001. -/
def getCharacterType (c : Char) : WordType :=
  if isWS c then .Whitespace else if isWordChar c then .Text else .Symbols

/-- `Word` of part_001.  `stop` models the source field `end`.  The source
scans allow `start = -1` (word touching index 0) and `stop = text.length`
(word touching the end of the buffer), so both are integers. -/
structure Word where
  start : Int
  stop : Int
  type : WordType
deriving DecidableEq, Repr

/-- Length of the maximal leading run of characters satisfying `p`. -/
def leadRunLen (p : Char → Bool) : List Char → Nat
  | [] => 0
  | c :: cs => if p c then leadRunLen p cs + 1 else 0

/-- The upward scan of `getWord`/`getWORD`: relative offset of the word end
from the scan origin.  Scanning `t.drop i`, the loop ends with `end = i - 1`
on a class change (`-1` here) and with `end = t.length` when it runs off the
end of the text (the run length here). -/
def endScanLen (p : Char → Bool) : List Char → Int
  | [] => 0
  | c :: cs => if p c then 1 + endScanLen p cs else -1

/-- The downward scan of `getWord`/`getWORD` on the word start, given the
index `n` and the reversed first `n + 1` characters: the loop ends with
`start = j + 1` at the first class change at `j`, and with `start = -1` when
every character down to index 0 has the same class. -/
def wordStartFrom (p : Char → Bool) (n : Nat) (revBefore : List Char) : Int :=
  let a := leadRunLen p revBefore
  if a = n + 1 then -1 else (n : Int) - a + 1

/-- `VimDocument.getWord` (part_001 lines 67-92).  `text[index] == null`
(negative or out-of-range index) yields `none`. -/
def getWord (t : List Char) (i : Int) : Option Word :=
  if i < 0 then none
  else
    match t.get? i.toNat with
    | none => none
    | some ch =>
      let ty := getCharacterType ch
      let p : Char → Bool := fun c => getCharacterType c = ty
      let n := i.toNat
      some
        { start := wordStartFrom p n ((t.take (n + 1)).reverse)
          stop := (n : Int) + endScanLen p (t.drop n)
          type := ty }

/-- `VimDocument.getWORD` (part_001 lines 94-119): the big-word variant,
classifying only whitespace against everything else. -/
def getWORD (t : List Char) (i : Int) : Option Word :=
  if i < 0 then none
  else
    match t.get? i.toNat with
    | none => none
    | some ch =>
      let big := ¬isWS ch
      let p : Char → Bool := fun c => (¬isWS c : Bool) = big
      let n := i.toNat
      some
        { start := wordStartFrom p n ((t.take (n + 1)).reverse)
          stop := (n : Int) + endScanLen p (t.drop n)
          type := if big then .Text else .Whitespace }

/-! ## Action data types (part_001) -/

/-- `MotionAction` of part_001.  The source `target?: any` field holds a
character for the find/mark motions and an absolute index for the jump
motion; the two uses are split into two optional fields. -/
structure MotionAction where
  motion : String
  count : Nat
  targetChar : Option Char := none
  targetIdx : Option Nat := none
deriving DecidableEq, Repr

/-- `ObjectAction` of part_001 (`range` is `'a'` or `'i'`). -/
structure ObjectAction where
  range : Char
  object : Char
  count : Nat
deriving DecidableEq, Repr

/-- `InstantAction` of part_001. -/
structure InstantAction where
  instant : Char
  count : Nat
  target : Option Char := none
  register : Char
deriving DecidableEq, Repr

/-- The `VimAction` tagged union of part_001. -/
inductive VimAction
  | motionAct (m : MotionAction)
  | changeMode (newMode : String) (count : Nat)
  | operatorAct (op : Char)
  | objectAct (o : ObjectAction)
  | instantAct (i : InstantAction)
  | replaceAct (ch : Char) (count : Nat)
deriving DecidableEq, Repr

/-- The `Motion` range result of part_001.  `stop` models the source field
`end`; both bounds are integers because the word scans can produce `-1`. -/
structure VMotion where
  start : Int
  stop : Int
  inclusive : Bool
  linewise : Bool
deriving DecidableEq, Repr

/-- Result of a motion calculation.  `nullMotion` models a JavaScript
`null`/`undefined` return; `thrown` models a `TypeError` raised by a
property access on `null` (caught by the top-level `key` handler). -/
inductive CalcResult
  | thrown
  | nullMotion
  | found (m : VMotion)
deriving DecidableEq, Repr

/-- `Range` of part_001 (used by the text-object calculator). -/
structure VRange where
  start : Int
  stop : Int
deriving DecidableEq, Repr

/-- `VimMode` of part_001. -/
inductive VimMode
  | Normal
  | Insert
  | Visual
  | Select
  | Cmdline
  | Ex
  | OperatorPending
  | Replace
  | VirtualReplace
  | InsertNormal
  | InsertVisual
  | InsertSelect
  | Jump
deriving DecidableEq, Repr

/-! ## Motion calculator (part_000, `calculateMotion`)

Helper loops are structural recursions mirroring the source's `for` loops;
`Except Unit` carries the `TypeError` raised by a property access on a
`null` word. -/

/-- The `w`/`W` loop body (part_000 lines 124-148 and 172-196), iterated
`count` times over the running `endIndex`. -/
def wLoop (getW : List Char → Int → Option Word) (t : List Char) :
    Nat → Int → Except Unit Int
  | 0, e => .ok e
  | n + 1, e =>
    match getW t e with
    | none => .error ()
    | some cw =>
      match getW t (cw.stop + 1) with
      | none => .ok cw.stop
      | some nw =>
        if nw.type = .Whitespace then
          match getW t (nw.stop + 1) with
          | none => .ok nw.stop
          | some nw2 => wLoop getW t n nw2.start
        else wLoop getW t n nw.start

/-- The `e`/`E` loop body (part_000 lines 198-224 and 226-252). -/
def eLoop (getW : List Char → Int → Option Word) (t : List Char) :
    Nat → Int → Except Unit Int
  | 0, e => .ok e
  | n + 1, e =>
    match getW t e with
    | none => .error ()
    | some cw0 =>
      match (if e = cw0.stop then getW t (cw0.stop + 1) else some cw0) with
      | none => .ok e
      | some cw =>
        if cw.type = .Whitespace then
          match getW t (cw.stop + 1) with
          | none => .ok cw.stop
          | some cw2 => eLoop getW t n cw2.stop
        else eLoop getW t n cw.stop

/-- The `b`/`B` loop body (part_000 lines 254-280 and 282-308). -/
def bLoop (getW : List Char → Int → Option Word) (t : List Char) :
    Nat → Int → Except Unit Int
  | 0, e => .ok e
  | n + 1, e =>
    match getW t e with
    | none => .error ()
    | some cw0 =>
      match (if e = cw0.start then getW t (cw0.start - 1) else some cw0) with
      | none => .ok e
      | some cw =>
        if cw.type = .Whitespace then
          match getW t (cw.start - 1) with
          | none => .ok cw.start
          | some cw2 => bLoop getW t n cw2.start
        else bLoop getW t n cw.start

/-- The `f`/`t` forward scan (part_000 lines 310-322): `rest` is
`t.drop pos`; returns the absolute index of the `cnt`-th occurrence of
`target` before the next newline or end of text, else `none`. -/
def ftScanAux (target : Char) : Nat → List Char → Nat → Option Nat
  | _, [], _ => none
  | cnt, c :: cs, pos =>
    if c = '\n' then none
    else if c = target then
      if cnt = 1 then some pos else ftScanAux target (cnt - 1) cs (pos + 1)
    else ftScanAux target cnt cs (pos + 1)

/-- The `F`/`T` backward scan (part_000 lines 331-343), examining index `j`
downward; the loop falls off at index `-1` (yielding `none`) and stops at a
newline. -/
def ftBackAux (t : List Char) (target : Char) : Nat → Nat → Option Nat
  | cnt, 0 =>
    if t.get? 0 = some '\n' then none
    else if t.get? 0 = some target ∧ cnt = 1 then some 0
    else none
  | cnt, j + 1 =>
    if t.get? (j + 1) = some '\n' then none
    else if t.get? (j + 1) = some target then
      if cnt = 1 then some (j + 1) else ftBackAux t target (cnt - 1) j
    else ftBackAux t target cnt j

/-- Opening/closing bracket classes of the `%` motion (part_000 lines
380-390 and 411). -/
def isOpenBracket (c : Char) : Bool := c = '(' ∨ c = '[' ∨ c = '{'

def isCloseBracket (c : Char) : Bool := c = ')' ∨ c = ']' ∨ c = '}'

/-- The `matchingBraces` map of part_000 (total; only bracket characters
reach it in the source). -/
def matchingBrace (c : Char) : Char :=
  if c = '[' then ']' else if c = ']' then '['
  else if c = '{' then '}' else if c = '}' then '{'
  else if c = '(' then ')' else if c = ')' then '(' else c

/-- Inner forward balance scan for an opening bracket (part_000 lines
393-409): `rest` is `t.drop pos`; `inc` is the bracket found, `dec` its
partner, `depth` the running `unmatchedCount`. -/
def matchFwd (inc dec : Char) : List Char → Nat → Nat → Option Nat
  | [], _, _ => none
  | c :: cs, pos, depth =>
    if c = inc then matchFwd inc dec cs (pos + 1) (depth + 1)
    else if c = dec then
      if depth = 1 then some pos else matchFwd inc dec cs (pos + 1) (depth - 1)
    else matchFwd inc dec cs (pos + 1) depth

/-- Inner backward balance scan for a closing bracket (part_000 lines
412-430), examining index `j` downward to 0. -/
def matchBwd (t : List Char) (inc dec : Char) : Nat → Nat → Option Nat
  | 0, depth =>
    if t.get? 0 = some inc then none
    else if t.get? 0 = some dec ∧ depth = 1 then some 0
    else none
  | j + 1, depth =>
    if t.get? (j + 1) = some inc then matchBwd t inc dec j (depth + 1)
    else if t.get? (j + 1) = some dec then
      if depth = 1 then some (j + 1) else matchBwd t inc dec j (depth - 1)
    else matchBwd t inc dec j depth

/-- Outer scan of the count-less `%` motion (part_000 lines 379-434):
walks forward from the cursor over `rest = t.drop pos`, returning `none`
at a newline or the end of text, and dispatching to the balance scans at
the first bracket character. -/
def pctOuter (t : List Char) : Nat → List Char → Option Nat
  | _, [] => none
  | pos, c :: cs =>
    if c = '\n' then none
    else if isOpenBracket c then matchFwd c (matchingBrace c) cs (pos + 1) 1
    else if isCloseBracket c then
      if pos = 0 then none else matchBwd t c (matchingBrace c) (pos - 1) 1
    else pctOuter t (pos + 1) cs

/-- `calculateMotion` of part_000: the pure motion calculator
`(buffer, motion action, cursor index) → range`. -/
def calculateMotion (t : List Char) (m : MotionAction) (index : Nat) : CalcResult :=
  if m.motion = "line" then
    match translate t (positionFromIndex t index) ((m.count : Int) - 1) 0 true with
    | none => .thrown
    | some p => .found ⟨index, p.index, false, true⟩
  else if m.motion = "jump" then
    match m.targetIdx with
    | none => .thrown
    | some tgt => .found ⟨index, tgt, true, false⟩
  else if m.motion = "h" then
    let p := positionFromIndex t index
    if p.col ≥ m.count then .found ⟨index, (index : Int) - m.count, false, false⟩
    else .found ⟨index, (index : Int) - p.col, false, false⟩
  else if m.motion = "l" then
    let p := positionFromIndex t index
    let line := getLineByIndex t index
    if (p.col : Int) + m.count < line.len then
      .found ⟨index, (index : Int) + m.count, false, false⟩
    else .found ⟨index, (index : Int) + ((line.len : Int) - p.col), false, false⟩
  else if m.motion = "j" then
    let ip := positionFromIndex t index
    let cnt := min m.count (lineCount t - ip.line - 1)
    match translate t ip (cnt : Int) 0 false with
    | none => .nullMotion
    | some p => .found ⟨index, p.index, false, true⟩
  else if m.motion = "k" then
    let ip := positionFromIndex t index
    let cnt := min m.count ip.line
    match translate t ip (-(cnt : Int)) 0 false with
    | none => .nullMotion
    | some p => .found ⟨index, p.index, false, true⟩
  else if m.motion = "0" then
    let p := positionFromIndex t index
    match translate t p 0 (-(p.col : Int)) false with
    | none => .thrown
    | some np => .found ⟨index, np.index, false, false⟩
  else if m.motion = "^" then
    let p := positionFromIndex t index
    let li := (getLineByIndex t index).firstNonWS
    match translate t p 0 ((li : Int) - p.col) false with
    | none => .thrown
    | some np => .found ⟨index, np.index, false, false⟩
  else if m.motion = "$" then
    match translate t (positionFromIndex t index) ((m.count : Int) - 1) 0 true with
    | none => .thrown
    | some p1 =>
      match getLine t p1.line with
      | none => .thrown
      | some ln =>
        let ep := positionFromLine t ln.lineNumber ((ln.len : Int) - 1)
        .found ⟨index, ep.index, true, false⟩
  else if m.motion = "w" then
    match wLoop getWord t m.count index with
    | .error _ => .thrown
    | .ok e => .found ⟨index, e, false, false⟩
  else if m.motion = "G" then
    let targetLine : Int :=
      ((if m.count ≠ 0 then min m.count (lineCount t) else lineCount t : Nat) : Int) - 1
    match getLine t targetLine with
    | none => .thrown
    | some ln =>
      .found ⟨index, (positionFromLine t targetLine (ln.firstNonWS : Int)).index, false, true⟩
  else if m.motion = "gg" then
    let targetLine : Int :=
      ((if m.count ≠ 0 then min m.count (lineCount t) else 1 : Nat) : Int) - 1
    match getLine t targetLine with
    | none => .thrown
    | some ln =>
      .found ⟨index, (positionFromLine t targetLine (ln.firstNonWS : Int)).index, false, true⟩
  else if m.motion = "W" then
    match wLoop getWORD t m.count index with
    | .error _ => .thrown
    | .ok e => .found ⟨index, e, false, false⟩
  else if m.motion = "e" then
    match eLoop getWord t m.count index with
    | .error _ => .thrown
    | .ok e => .found ⟨index, e, true, false⟩
  else if m.motion = "E" then
    match eLoop getWORD t m.count index with
    | .error _ => .thrown
    | .ok e => .found ⟨index, e, true, false⟩
  else if m.motion = "b" then
    match bLoop getWord t m.count index with
    | .error _ => .thrown
    | .ok e => .found ⟨index, e, false, false⟩
  else if m.motion = "B" then
    match bLoop getWORD t m.count index with
    | .error _ => .thrown
    | .ok e => .found ⟨index, e, true, false⟩
  else if m.motion = "f" ∨ m.motion = "t" then
    match m.targetChar with
    | none => .nullMotion
    | some tgt =>
      match ftScanAux tgt m.count (t.drop (index + 1)) (index + 1) with
      | none => .nullMotion
      | some e =>
        .found ⟨index, (e : Int) - (if m.motion = "t" then 1 else 0), true, false⟩
  else if m.motion = "F" ∨ m.motion = "T" then
    match m.targetChar with
    | none => .nullMotion
    | some tgt =>
      if index = 0 then .nullMotion
      else
        match ftBackAux t tgt m.count (index - 1) with
        | none => .nullMotion
        | some e =>
          .found ⟨index, (e : Int) + (if m.motion = "T" then 1 else 0), false, false⟩
  else if m.motion = "-" ∨ m.motion = "\n" ∨ m.motion = "_" ∨ m.motion = "+" then
    let cnt : Int :=
      (m.count : Int) * (if m.motion = "-" then -1 else 1) - (if m.motion = "_" then 1 else 0)
    let curLine := (getLineByIndex t index).lineNumber
    let targetLineNumber : Int := max (min ((curLine : Int) + cnt) ((lineCount t : Int) - 1)) 0
    match getLine t targetLineNumber with
    | none => .thrown
    | some tl =>
      .found ⟨index, (positionFromLine t targetLineNumber (tl.firstNonWS : Int)).index, false, true⟩
  else if m.motion = "%" then
    if m.count ≠ 0 then
      let lineNumber : Nat := (m.count * lineCount t + 99) / 100 - 1
      match getLine t (lineNumber : Int) with
      | none => .thrown
      | some ln =>
        .found ⟨index, (positionFromLine t (lineNumber : Int) (ln.firstNonWS : Int)).index, false, true⟩
    else
      match pctOuter t index (t.drop index) with
      | none => .nullMotion
      | some e => .found ⟨index, (e : Int), true, false⟩
  else .nullMotion

/-! ## Vim session state (vim.ts)

The `Vim` class fields that the command engine reads and writes.  Marks are
vscode `Position` values (`line`/`character` pairs); a stored `null` mark is
an entry with value `none`.  Registers and marks are association lists with
first-match lookup, modelling JavaScript object maps.  Decorations, status
bars and `enteredText` are host UI concerns and are not modelled. -/

/-- A stored mark or change-range endpoint: a vscode `Position`. -/
structure MarkPos where
  line : Nat
  col : Nat
deriving DecidableEq, Repr

/-- The `lastLineSearch` record of vim.ts (`{ motion, target }`). -/
structure LineSearch where
  motion : String
  target : Char
deriving DecidableEq, Repr

/-- `VimRegister` of vim.ts. -/
structure VimRegister where
  linewise : Bool
  text : List Char
deriving DecidableEq, Repr

/-- The mutable fields of the `Vim` class that the key parser and executor
touch. -/
structure VimState where
  mode : VimMode
  pseudoMode : Option Char
  pseudoModeParameter : Option Char
  operatorPending : Option Char
  objectRange : Option Char
  enteredCount : String
  operatorCount : String
  lastLineSearch : Option LineSearch
  registerTarget : Char
  registers : List (Char × VimRegister)
  marks : List (Char × Option MarkPos)
  indexSet : Option (List (Char × List Nat))
deriving DecidableEq, Repr

/-- JavaScript object-map write: prepending wins first-match lookup. -/
def regWrite (regs : List (Char × VimRegister)) (k : Char) (v : VimRegister) :
    List (Char × VimRegister) :=
  (k, v) :: regs

/-- `setMode(mode, reset)` of vim.ts (lines 106-124); `reset = true` clears
every transient accumulator and pseudo-mode. -/
def setModeReset (s : VimState) (m : VimMode) : VimState :=
  { s with
    operatorCount := ""
    pseudoMode := none
    pseudoModeParameter := none
    operatorPending := none
    enteredCount := ""
    objectRange := none
    indexSet := none
    registerTarget := '"'
    mode := m }

/-- `setMode(VimMode.Normal, true)`. -/
def resetState (s : VimState) : VimState := setModeReset s VimMode.Normal

/-- The steady Normal-mode state every completed or aborted command returns
to (all accumulators clear, unnamed register targeted, no stores). -/
def baseState : VimState :=
  { mode := VimMode.Normal
    pseudoMode := none
    pseudoModeParameter := none
    operatorPending := none
    objectRange := none
    enteredCount := ""
    operatorCount := ""
    lastLineSearch := none
    registerTarget := '"'
    registers := []
    marks := []
    indexSet := none }

/-! ## Jump index (vim.ts `setToLetterGroups`, `jumpKey`) -/

/-- Elements of `xs` assigned to label number `k` by the round-robin loop
of `setToLetterGroups`: the elements at list positions congruent to `k`
modulo 26. -/
def pickEvery (xs : List Nat) (k : Nat) : List Nat :=
  xs.enum.filterMap (fun p => if p.1 % 26 = k then some p.2 else none)

/-- `setToLetterGroups` (vim.ts lines 23-36): partitions a list of match
indices round-robin over the labels `A`..`Z`. -/
def setToLetterGroups (xs : List Nat) : List (Char × List Nat) :=
  (List.range 26).map (fun k => (Char.ofNat (65 + k), pickEvery xs k))

/-- Case-insensitive single-character match as performed by the
`new RegExp(escapeRegExp(key), "ig")` search of `jumpKey` (the key has
already been upper-cased). -/
def ciMatches (c key : Char) : Bool := c.toUpper = key.toUpper

/-- All buffer indices matching the search character case-insensitively. -/
def matchIndices (t : List Char) (key : Char) : List Nat :=
  t.enum.filterMap (fun p => if ciMatches p.2 key then some p.1 else none)

/-- Result of one `jumpKey` call: the new `indexSet`, the resolved motion
action if any, and whether the call reset the session to Normal mode. -/
structure JumpOut where
  indexSet : Option (List (Char × List Nat))
  action : Option MotionAction
  resetToNormal : Bool
deriving DecidableEq, Repr

/-- `jumpKey` (vim.ts lines 429-470), minus the decoration rendering.  The
first call (no `indexSet`) builds the letter groups from a whole-buffer
case-insensitive scan and produces no action; later calls look up the
pressed label, aborting on an empty group, resolving on a singleton group,
and re-partitioning otherwise. -/
def jumpKey (indexSet : Option (List (Char × List Nat))) (t : List Char)
    (key : Char) : JumpOut :=
  let k := key.toUpper
  match indexSet with
  | none =>
    { indexSet := some (setToLetterGroups (matchIndices t k))
      action := none
      resetToNormal := false }
  | some gs =>
    match gs.lookup k with
    | none => { indexSet := none, action := none, resetToNormal := true }
    | some [] => { indexSet := none, action := none, resetToNormal := true }
    | some [x] =>
      { indexSet := none
        action := some { motion := "jump", count := 1, targetIdx := some x }
        resetToNormal := false }
    | some l =>
      { indexSet := some (setToLetterGroups l), action := none, resetToNormal := false }

/-! ## Key parser (vim.ts `getNormalCommand`) -/

/-- An input key: the special `<esc>` key (checked by the mode handlers
before `getNormalCommand` runs) or a single character. -/
inductive Key
  | esc
  | ch (c : Char)
deriving DecidableEq, Repr

/-- Outcome of `getNormalCommand`: a resolved action, a `null` return
(key buffered or input rejected), or the `.` branch, whose replay of
`lastAction` happens inside the source method and is surfaced to the
caller as a marker here. -/
inductive GncOut
  | act (a : VimAction)
  | nothing
  | dotReplay
deriving DecidableEq, Repr

/-- Decimal value of a digit string (the count accumulators only ever hold
decimal digits). -/
def decimalValue (l : List Char) : Nat :=
  l.foldl (fun acc c => acc * 10 + (c.toNat - 48)) 0

/-- `Number(s || "1")` and friends: a digit accumulator with a default for
the empty string. -/
def countOr (s : String) (d : Nat) : Nat :=
  if s = "" then d else decimalValue s.data

/-- The tail of `getNormalCommand` (vim.ts lines 257-317): the branches
after the pseudo-mode dispatch — operator doubling, Visual instants, count
digits, single-key motions, pseudo-mode entries, and the mode-specific
resolutions, ending in the reject-and-reset fallback. -/
def getNormalCommandTail (s : VimState) (key : Char) : VimState × GncOut :=
  if s.mode = VimMode.OperatorPending ∧ s.operatorPending = some key then
    (s, .act (.motionAct { motion := "line", count := countOr s.enteredCount 1 }))
  else if s.mode = VimMode.Visual ∧ "dcCRSsxuUyY".data.contains key then
    (s, .act (.instantAct
      { instant := key, count := countOr s.enteredCount 1, register := s.registerTarget }))
  else if "123456789".data.contains key ∨ (key = '0' ∧ s.enteredCount.length > 0) then
    ({ s with enteredCount := s.enteredCount.push key }, .nothing)
  else if "0wWeEhjkl$^bBG-\n+_;,%".data.contains key then
    if key = 'G' ∨ key = '%' then
      (s, .act (.motionAct { motion := toString key, count := countOr s.enteredCount 0 }))
    else
      (s, .act (.motionAct { motion := toString key, count := countOr s.enteredCount 1 }))
  else if "fFtT".data.contains key then
    ({ s with pseudoMode := some 'f', pseudoModeParameter := some key }, .nothing)
  else if "grmQ\"'`".data.contains key then
    ({ s with pseudoMode := some key }, .nothing)
  else if s.mode = VimMode.Normal then
    if "iIaAoOvV".data.contains key then
      (s, .act (.changeMode (toString key) (countOr s.enteredCount 1)))
    else if "cdy".data.contains key then
      (s, .act (.operatorAct key))
    else if "upPxXCDYSs".data.contains key then
      (s, .act (.instantAct
        { instant := key, count := countOr s.enteredCount 1, register := s.registerTarget }))
    else if key = '.' then
      -- the source replays `lastAction` via `doNormalAction` here, then
      -- resets; the replay is surfaced to the caller as a marker
      (resetState s, .dotReplay)
    else (resetState s, .nothing)
  else if (s.mode = VimMode.Visual ∨ s.mode = VimMode.OperatorPending) ∧
      (key = 'i' ∨ key = 'a') then
    ({ s with pseudoMode := some 'o', objectRange := some key }, .nothing)
  else (resetState s, .nothing)

/-- `getNormalCommand` (vim.ts lines 206-318): resolves one key against the
pending pseudo-mode, the current mode and the count accumulators, possibly
mutating the session state.  Needs the buffer text because the pending-`Q`
branch delegates to `jumpKey`. -/
def getNormalCommand (s : VimState) (t : List Char) (key : Char) :
    VimState × GncOut :=
  if s.pseudoMode = some 'f' then
    let pm := (s.pseudoModeParameter.map toString).getD "undefined"
    ({ s with pseudoMode := none,
              lastLineSearch := some { motion := pm, target := key } },
      .act (.motionAct
        { motion := pm, targetChar := some key, count := countOr s.enteredCount 1 }))
  else if s.pseudoMode = some 'g' then
    let s := { s with pseudoMode := none }
    if key = 'g' then
      (s, .act (.motionAct { motion := "gg", count := countOr s.enteredCount 0 }))
    else if key = 'I' then (s, .act (.changeMode "gI" 1))
    else (resetState s, .nothing)
  else if s.pseudoMode = some 'r' then
    ({ s with pseudoMode := none }, .act (.replaceAct key (countOr s.enteredCount 1)))
  else if s.pseudoMode = some 'Q' then
    let out := jumpKey s.indexSet t key
    let s' := if out.resetToNormal then resetState s else { s with indexSet := out.indexSet }
    (s', match out.action with
         | some a => .act (.motionAct a)
         | none => .nothing)
  else if s.pseudoMode = some '"' then
    ({ s with registerTarget := key, pseudoMode := none }, .nothing)
  else if s.pseudoMode = some 'm' then
    ({ s with pseudoMode := none },
      .act (.instantAct
        { instant := 'm', count := 1, register := s.registerTarget, target := some key }))
  else if s.pseudoMode = some '`' ∨ s.pseudoMode = some '\'' then
    let markType := if s.pseudoMode = some '`' then "`" else "'"
    ({ s with pseudoMode := none },
      .act (.motionAct { motion := markType, count := 1, targetChar := some key }))
  else if s.pseudoMode = some 'o' then
    -- source lines 250-255; when the key is not an object key, the cleared
    -- state falls through to the remaining branches
    let s := { s with pseudoMode := none }
    if "wWsp][)(<>t{}\"'bB".data.contains key then
      -- `range: this.objectRange`; the calculator only ever compares the
      -- range against 'a', so a never-set (null) range behaves as 'i'
      (s, .act (.objectAct
        { range := s.objectRange.getD 'i', object := key, count := countOr s.enteredCount 1 }))
    else getNormalCommandTail s key
  else getNormalCommandTail s key

/-! ## Text-object calculator (vim.ts `findNextChar`, `findLeftRightRange`,
`findEnclosedRange`, `calculateObject`) -/

/-- The downward direction of `findNextChar` (vim.ts lines 363-372),
examining index `j` downward.  The loop guard `i > 0 && i < doc.length`
means index 0 is never examined. -/
def findCharDown (t : List Char) (c : Char) (cross : Bool) : Nat → Int
  | 0 => -1
  | j + 1 =>
    match t.get? (j + 1) with
    | none => -1
    | some ch =>
      if ¬cross ∧ ch = '\n' then -1
      else if ch = c then (j + 1 : Nat)
      else findCharDown t c cross j

/-- The upward direction of `findNextChar`, scanning `rest = t.drop pos`. -/
def findCharUpAux (c : Char) (cross : Bool) : List Char → Nat → Int
  | [], _ => -1
  | ch :: cs, pos =>
    if ¬cross ∧ ch = '\n' then -1
    else if ch = c then (pos : Nat)
    else findCharUpAux c cross cs (pos + 1)

/-- `Vim.findNextChar` (vim.ts lines 363-372).  The source call sites pass
only directions `1` and `-1`; any other direction would not terminate in
the source and is mapped to the not-found result here.  Because of the
`i > 0` loop guard, a scan starting at index 0 immediately fails in either
direction. -/
def findNextChar (t : List Char) (c : Char) (startIndex : Int) (direction : Int)
    (cross : Bool) : Int :=
  if direction = -1 then
    if startIndex ≤ 0 then -1 else findCharDown t c cross startIndex.toNat
  else if direction = 1 then
    if startIndex ≤ 0 then -1
    else findCharUpAux c cross (t.drop startIndex.toNat) startIndex.toNat
  else -1

/-- `Vim.findLeftRightRange` (vim.ts lines 350-361). -/
def findLeftRightRange (t : List Char) (leftC rightC : Char) (index : Int)
    (includeEnclosing cross : Bool) : Option VRange :=
  let si := findNextChar t leftC index (-1) cross
  if si = -1 then none
  else
    let ei := findNextChar t rightC index 1 cross
    if ei = -1 then none
    else some (if includeEnclosing then ⟨si, ei⟩ else ⟨si + 1, ei - 1⟩)

/-- `Vim.findEnclosedRange` (vim.ts lines 374-381). -/
def findEnclosedRange (t : List Char) (c : Char) (index : Int)
    (includeEnclosing cross : Bool) : Option VRange :=
  findLeftRightRange t c c index includeEnclosing cross

/-- Result of the text-object calculation; `thrown` models the `TypeError`
of `word.start` when `getWord` returned `null`. -/
inductive ObjCalc
  | thrown
  | nullObj
  | found (r : VRange)
deriving DecidableEq, Repr

/-- `Vim.calculateObject` (vim.ts lines 383-427). -/
def calculateObject (t : List Char) (o : ObjectAction) (index : Nat) : ObjCalc :=
  if o.object = 'w' then
    match getWord t index with
    | none => .thrown
    | some w => .found ⟨w.start, w.stop⟩
  else if o.object = 'W' then
    match getWORD t index with
    | none => .thrown
    | some w => .found ⟨w.start, w.stop⟩
  else if o.object = '"' ∨ o.object = '\'' ∨ o.object = '`' then
    match findEnclosedRange t o.object index (o.range = 'a') false with
    | none => .nullObj
    | some r => .found r
  else if o.object = '[' ∨ o.object = ']' then
    match findLeftRightRange t '[' ']' index (o.range = 'a') true with
    | none => .nullObj
    | some r => .found r
  else if o.object = '(' ∨ o.object = ')' ∨ o.object = 'b' then
    match findLeftRightRange t '(' ')' index (o.range = 'a') true with
    | none => .nullObj
    | some r => .found r
  else if o.object = '{' ∨ o.object = '}' ∨ o.object = 'B' then
    match findLeftRightRange t '{' '}' index (o.range = 'a') true with
    | none => .nullObj
    | some r => .found r
  else if o.object = '<' ∨ o.object = '>' then
    match findLeftRightRange t '<' '>' index (o.range = 'a') true with
    | none => .nullObj
    | some r => .found r
  else .nullObj

/-! ## Vim-level motion wrapper (vim.ts `calculateMotion`, lines 544-593):
mark motions and the `;`/`,` repeat of the last line search. -/

/-- The direction-flip map of the `,` motion (vim.ts lines 566-570); the
source looks the motion up in an object literal, yielding `undefined`
(`none`) for any other string. -/
def flipSearch (m : String) : Option String :=
  if m = "t" then some "T" else if m = "T" then some "t"
  else if m = "f" then some "F" else if m = "F" then some "f"
  else none

/-- `Vim.calculateMotion` (vim.ts lines 544-593): resolves mark motions
against the mark store, implements the `;`/`,` repeat (recomputing a
non-moving `t`/`T` once more with `count + 1`), and delegates everything
else to the part_000 calculator.  A `;`/`,` whose recomputed motion is a
`t`/`T` variant and came back `null` hits `calculatedMotion.start` on
`null` in the source: `thrown`. -/
def vimCalculateMotion (marks : List (Char × Option MarkPos))
    (lls : Option LineSearch) (t : List Char) (m : MotionAction) (index : Nat) :
    CalcResult :=
  if m.motion = "`" ∨ m.motion = "'" then
    match m.targetChar with
    | none => .nullMotion
    | some tc =>
      match (marks.lookup tc).join with
      | none => .nullMotion
      | some mark =>
        if m.motion = "'" then
          match getLine t (mark.line : Int) with
          | none => .thrown
          | some ln =>
            .found ⟨index, (positionFromLine t (mark.line : Int) (ln.firstNonWS : Int)).index,
              false, true⟩
        else
          .found ⟨index, (positionFromLine t (mark.line : Int) (mark.col : Int)).index,
            false, false⟩
  else if m.motion = ";" ∨ m.motion = "," then
    match lls with
    | none => .nullMotion
    | some ls =>
      match (if m.motion = "," then flipSearch ls.motion else some ls.motion) with
      | none => .thrown
      | some lm =>
        let m1 := calculateMotion t
          { motion := lm, targetChar := some ls.target, count := m.count } index
        if lm = "t" ∨ lm = "T" then
          match m1 with
          | .found mm =>
            if mm.start = mm.stop then
              calculateMotion t
                { motion := lm, targetChar := some ls.target, count := m.count + 1 } index
            else .found mm
          | .nullMotion => .thrown
          | .thrown => .thrown
        else m1
  else calculateMotion t m index

/-! ## Operator executor (vim.ts `performOperation`, `cleanSelection`,
`keyOperatorPending`) -/

/-- Result of one operator-pending key (or of `performOperation`): the new
session state, buffer text, cursor (as an absolute index; `none` when the
source leaves the cursor to host line commands), host editor commands the
source requested, and whether a `TypeError` escaped to the top-level
handler. -/
structure OPStep where
  vim : VimState
  text : List Char
  cursor : Option Nat
  host : List String
  threw : Bool
deriving DecidableEq, Repr

/-- `Vim.cleanSelection` (vim.ts lines 187-204) for an empty selection at
index `i`: in Normal/OperatorPending mode, a cursor sitting at a nonzero
column at or past the end of its line steps one column left. -/
def cleanCursor (mode : VimMode) (t : List Char) (i : Nat) : Nat :=
  if mode = VimMode.Normal ∨ mode = VimMode.OperatorPending then
    let col := colOf t i
    if col = 0 then i
    else if col ≥ lineLenAt t i then i - 1
    else i
  else i

/-- `Vim.performOperation` (vim.ts lines 472-542): normalizes the range,
writes the register, and for `c`/`d` deletes the addressed text with the
special first/last-line rules for linewise ranges.  The post-edit host
commands (`insertLineAfter`/`insertLineBefore`/`cursorHome`) are recorded
in `host`; after a linewise delete the source leaves the cursor to the
host, so `cursor` is `none` there. -/
def performOperation (s : VimState) (t : List Char) (cursor0 : Nat) (op : Char)
    (mo : VMotion) : OPStep :=
  let a := if mo.stop < mo.start then mo.stop else mo.start
  let b0 := if mo.stop < mo.start then mo.start else mo.stop
  let b := if mo.inclusive then b0 + 1 else b0
  let ca := idxClamp t a
  let cb := idxClamp t b
  let regs :=
    if mo.linewise then
      regWrite s.registers s.registerTarget
        ⟨true, slice t (lineStart t ca) (lineEnd t cb) ++ "\n".data⟩
    else regWrite s.registers s.registerTarget ⟨false, slice t ca cb⟩
  let s := { s with registers := regs }
  if op = 'y' then
    { vim := resetState s, text := t, cursor := some cursor0, host := [], threw := false }
  else if op = 'c' ∨ op = 'd' then
    if mo.linewise then
      let startLineNumber := lineOf t ca
      let endLineNumber := lineOf t cb
      let includesLast := endLineNumber = lineCount t - 1
      let includesFirst := startLineNumber = 0
      if includesFirst ∧ includesLast then
        let s := { s with registers := regWrite s.registers s.registerTarget ⟨true, t⟩ }
        let s2 := setModeReset s (if op = 'c' then VimMode.Insert else VimMode.Normal)
        { vim := s2, text := [], cursor := none
          host := (if op = 'd' then ["cursorHome"] else []), threw := false }
      else
        let sIdx :=
          if includesLast then
            lineStartOfLine t (startLineNumber - 1) + lineLenOfLine t (startLineNumber - 1)
          else lineStartOfLine t startLineNumber
        let eIdx := lineStartOfLine t (endLineNumber + 1)
        let t' := t.take sIdx ++ t.drop eIdx
        let s2 := setModeReset s (if op = 'c' then VimMode.Insert else VimMode.Normal)
        let host :=
          if op = 'c' then
            if includesLast then
              if ¬includesFirst then ["editor.action.insertLineAfter"] else []
            else ["editor.action.insertLineBefore"]
          else if includesLast then ["cursorHome"] else []
        { vim := s2, text := t', cursor := none, host := host, threw := false }
    else
      let t' := t.take ca ++ t.drop cb
      let s2 := setModeReset s (if op = 'c' then VimMode.Insert else VimMode.Normal)
      { vim := s2, text := t', cursor := some (cleanCursor s2.mode t' ca)
        host := [], threw := false }
  else
    -- unreachable in the source: `performOperation` is only invoked with
    -- 'y', 'c' or 'd'; after the register write nothing else happens
    { vim := s, text := t, cursor := some cursor0, host := [], threw := false }

/-- Lines 611-625 of `keyOperatorPending`: the composed count
(`Number(enteredCount || "1") * Number(operatorCount || "1")`), the
zero-count hack for `G`/`gg`/`%` when neither count was typed, and the
`cw → ce` / `cW → cE` adjustment for the pending `c` operator. -/
def adjustMotionCommand (ec oc : String) (op : Option Char) (m : MotionAction) :
    MotionAction :=
  let count :=
    if (m.motion = "G" ∨ m.motion = "gg" ∨ m.motion = "%") ∧ ec = "" ∧ oc = "" then 0
    else countOr ec 1 * countOr oc 1
  let mo :=
    if op = some 'c' then
      if m.motion = "w" then "e" else if m.motion = "W" then "E" else m.motion
    else m.motion
  { m with motion := mo, count := count }

/-- The motion arm of `keyOperatorPending` after the count/target
adjustment (vim.ts lines 627-637): calculate the motion, abandon on
`null`, execute the pending operator otherwise. -/
def opExecuteMotion (s : VimState) (t : List Char) (cursor : Nat)
    (mc : MotionAction) : OPStep :=
  match vimCalculateMotion s.marks s.lastLineSearch t mc cursor with
  | .thrown => { vim := s, text := t, cursor := some cursor, host := [], threw := true }
  | .nullMotion =>
    { vim := resetState s, text := t, cursor := some cursor, host := [], threw := false }
  | .found mo =>
    if s.operatorPending = some 'c' ∨ s.operatorPending = some 'd' ∨
        s.operatorPending = some 'y' then
      performOperation s t cursor (s.operatorPending.getD 'd') mo
    else
      { vim := resetState s, text := t, cursor := some cursor, host := [], threw := false }

/-- `Vim.keyOperatorPending` (vim.ts lines 595-653): one key received in
OperatorPending mode.  `<esc>` aborts; a resolved motion goes through
`adjustMotionCommand`/`opExecuteMotion`; a resolved text object is deleted
directly (end inclusive) without a register write; any other resolution
leaves the state as the parser left it. -/
def keyOperatorPending (s : VimState) (t : List Char) (cursor : Nat) (key : Key) :
    OPStep :=
  match key with
  | .esc =>
    { vim := resetState s, text := t, cursor := some cursor, host := [], threw := false }
  | .ch c =>
    let p := getNormalCommand s t c
    match p.2 with
    | .act (.motionAct m) =>
      opExecuteMotion p.1 t cursor
        (adjustMotionCommand p.1.enteredCount p.1.operatorCount p.1.operatorPending m)
    | .act (.objectAct o) =>
      match calculateObject t o cursor with
      | .thrown =>
        { vim := p.1, text := t, cursor := some cursor, host := [], threw := true }
      | .nullObj =>
        { vim := resetState p.1, text := t, cursor := some cursor, host := [], threw := false }
      | .found r =>
        let ca := idxClamp t r.start
        let cb := idxClamp t (r.stop + 1)
        let lo := min ca cb
        let hi := max ca cb
        let t' := t.take lo ++ t.drop hi
        let s2 := setModeReset p.1
          (if p.1.operatorPending = some 'c' then VimMode.Insert else VimMode.Normal)
        { vim := s2, text := t', cursor := some (cleanCursor s2.mode t' ca)
          host := [], threw := false }
    | _ => { vim := p.1, text := t, cursor := some cursor, host := [], threw := false }

/-- The `operator` arm of `doNormalAction` (vim.ts lines 806-810): entering
OperatorPending mode captures the typed count into `operatorCount` and
clears `enteredCount`; `setMode(OperatorPending, false)` does not reset. -/
def doNormalActionOperator (s : VimState) (op : Char) : VimState :=
  { s with
    operatorPending := some op
    operatorCount := s.enteredCount
    enteredCount := ""
    mode := VimMode.OperatorPending }

/-! ## Mark maintenance (vim.ts `documentChanged`, lines 320-348) -/

/-- vscode `Position.isBefore`: strict lexicographic order. -/
def posLt (p q : MarkPos) : Bool :=
  p.line < q.line ∨ (p.line = q.line ∧ p.col < q.col)

/-- vscode `Position` order, non-strict. -/
def posLe (p q : MarkPos) : Bool :=
  p.line < q.line ∨ (p.line = q.line ∧ p.col ≤ q.col)

/-- vscode `Range.contains(position)`: inclusive at both endpoints. -/
def rangeContains (rs re p : MarkPos) : Bool := posLe rs p ∧ posLe p re

/-- One entry of a buffer-change notification: the replaced range and the
inserted text. -/
structure VChange where
  rs : MarkPos
  re : MarkPos
  text : List Char
deriving DecidableEq, Repr

/-- vscode `Position.translate(lineDelta, 0)`: constructing a position with
a negative line throws, modelled by `none`. -/
def translateMark (p : MarkPos) (lineDelta : Int) : Option MarkPos :=
  if (p.line : Int) + lineDelta < 0 then none
  else some ⟨((p.line : Int) + lineDelta).toNat, p.col⟩

/-- The net line delta of one change (vim.ts lines 332-333):
inserted newlines minus the line span of the replaced range. -/
def netLines (ch : VChange) : Int :=
  (ch.text.count '\n' : Int) - (((ch.re.line : Int) - ch.rs.line).natAbs : Int)

/-- The first-pass treatment of one stored mark value for one change
(vim.ts lines 323-328): a null mark is skipped; a mark contained in the
replaced range is nulled. -/
def invalMark (ch : VChange) (v : Option MarkPos) : Option MarkPos :=
  v.bind (fun p => if rangeContains ch.rs ch.re p then none else some p)

/-- First pass of `documentChanged` (lines 322-329): for every change, a
mark contained in the replaced range is nulled. -/
def marksInvalidate (changes : List VChange)
    (marks : List (Char × Option MarkPos)) : List (Char × Option MarkPos) :=
  changes.foldl
    (fun ms ch => ms.map (fun e => (e.1, invalMark ch e.2)))
    marks

/-- The second-pass treatment of one stored mark value for one change
(vim.ts lines 335-343): null marks and marks before either range endpoint
are kept; the rest are translated by the net line delta, which throws
(outer `none`) on a negative resulting line. -/
def translateEntryOpt (ch : VChange) (v : Option MarkPos) : Option (Option MarkPos) :=
  match v with
  | none => some none
  | some p =>
    if posLt p ch.rs ∨ posLt p ch.re then some (some p)
    else (translateMark p (netLines ch)).map some

/-- Second pass of `documentChanged` (lines 331-346): per change, a mark
neither null nor before the range endpoints is translated by the net line
delta; a translation to a negative line throws (`none` aborts the
notification, as the exception escapes the handler). -/
def marksTranslate (changes : List VChange)
    (marks : List (Char × Option MarkPos)) : Option (List (Char × Option MarkPos)) :=
  changes.foldlM
    (fun ms ch =>
      ms.mapM (fun e => (translateEntryOpt ch e.2).map (fun v => (e.1, v))))
    marks

/-- `Vim.documentChanged` (vim.ts lines 320-348) for a non-null event. -/
def documentChanged (changes : List VChange)
    (marks : List (Char × Option MarkPos)) : Option (List (Char × Option MarkPos)) :=
  marksTranslate changes (marksInvalidate changes marks)

/-! ## Theorems -/

/-- The left delimiter whose backward scan `calculateObject` performs for
each delimiter-pair object key (`none` for the word objects, which do not
scan). -/
def objectLeftChar (o : Char) : Option Char :=
  if o = '"' ∨ o = '\'' ∨ o = '`' then some o
  else if o = '[' ∨ o = ']' then some '['
  else if o = '(' ∨ o = ')' ∨ o = 'b' then some '('
  else if o = '{' ∨ o = '}' ∨ o = 'B' then some '{'
  else if o = '<' ∨ o = '>' then some '<'
  else none

/-- The backward character scan, started at `k`, fails when the wanted
character occurs at none of the indices `1..k` — index 0 is outside the
loop guard and is never examined. -/
theorem findCharDown_eq_neg_one (t : List Char) (lc : Char) (cross : Bool) (k : Nat)
    (h : ∀ j : Nat, 0 < j → j ≤ k → t.get? j ≠ some lc) :
    findCharDown t lc cross k = -1 := by
  induction k with
  | zero => rfl
  | succ j ih =>
    unfold findCharDown
    cases hg : t.get? (j + 1) with
    | none => rfl
    | some ch =>
      by_cases hnl : ¬cross ∧ ch = '\n'
      · simp [hnl]
      · have hne : ch ≠ lc := by
          intro he
          exact h (j + 1) (Nat.succ_pos j) le_rfl (by rw [hg, he])
        simp only [hnl, if_false, hne, if_neg]
        · exact ih (fun j' hj1 hj2 => h j' hj1 (Nat.le_succ_of_le hj2))

/-- C10: the backward scan used by quote and bracket text objects never
examines absolute index 0 (the loop keeps its index strictly positive), so
whenever the left delimiter occurs at no index in `1..cursor` — in
particular when its only candidate at or before the cursor sits at index 0,
and always when the cursor itself is at index 0 — the object calculator
returns null. -/
theorem C10_left_scan_skips_index_zero (t : List Char) (cursor : Nat)
    (o : ObjectAction) (lc : Char)
    (hlc : objectLeftChar o.object = some lc)
    (h : ∀ j : Nat, 0 < j → j ≤ cursor → t.get? j ≠ some lc) :
    calculateObject t o cursor = .nullObj := by
  have hdown : ∀ cross, findNextChar t lc cursor (-1) cross = -1 := by
    intro cross
    unfold findNextChar
    simp only [if_true, reduceIte]
    by_cases hc : (cursor : Int) ≤ 0
    · simp [hc]
    · rw [if_neg hc, Int.toNat_natCast]
      exact findCharDown_eq_neg_one t lc cross cursor h
  have hflr : ∀ (rc : Char) (incl cross : Bool),
      findLeftRightRange t lc rc cursor incl cross = none := by
    intro rc incl cross
    unfold findLeftRightRange
    rw [hdown cross]
    simp
  unfold objectLeftChar at hlc
  unfold calculateObject
  split_ifs at hlc with h1 h2 h3 h4 h5
  · obtain rfl : o.object = lc := Option.some.inj hlc
    rcases h1 with h1 | h1 | h1 <;> rw [h1] at hflr ⊢ <;>
      simp only [String.reduceEq, Char.reduceEq, or_self, or_true, true_or, or_false, false_or,
        if_true, if_false, reduceIte, findEnclosedRange] <;> rw [hflr]
  · obtain rfl : lc = '[' := (Option.some.inj hlc).symm
    rcases h2 with h2 | h2 <;> rw [h2] <;>
      simp only [Char.reduceEq, or_self, or_true, true_or, or_false, false_or, if_true,
        if_false, reduceIte] <;> rw [hflr]
  · obtain rfl : lc = '(' := (Option.some.inj hlc).symm
    rcases h3 with h3 | h3 | h3 <;> rw [h3] <;>
      simp only [Char.reduceEq, or_self, or_true, true_or, or_false, false_or, if_true,
        if_false, reduceIte] <;> rw [hflr]
  · obtain rfl : lc = '{' := (Option.some.inj hlc).symm
    rcases h4 with h4 | h4 | h4 <;> rw [h4] <;>
      simp only [Char.reduceEq, or_self, or_true, true_or, or_false, false_or, if_true,
        if_false, reduceIte] <;> rw [hflr]
  · obtain rfl : lc = '<' := (Option.some.inj hlc).symm
    rcases h5 with h5 | h5 <;> rw [h5] <;>
      simp only [Char.reduceEq, or_self, or_true, true_or, or_false, false_or, if_true,
        if_false, reduceIte] <;> rw [hflr]

/-- Witness for C10: `di(` on `"(ab"` with the cursor at index 2 — the only
`(` at or before the cursor sits at index 0 — yields no object. -/
theorem C10_left_scan_skips_index_zero_witness :
    calculateObject "(ab".data ⟨'i', '(', 1⟩ 2 = .nullObj :=
  C10_left_scan_skips_index_zero "(ab".data 2 ⟨'i', '(', 1⟩ '(' (by decide)
    (by intro j h1 h2; interval_cases j <;> decide)

/-- C9: `{count}%` computes its target line as
`ceil(count * lineCount / 100) - 1` with no clamping, so whenever that
value reaches `lineCount` — in particular for every count above 100 — the
line lookup fails (the vscode `lineAt` call throws). -/
theorem C9_percent_count_unclamped :
    (∀ (t : List Char) (cnt idx : Nat), cnt ≠ 0 →
      (lineCount t : Int) ≤ ((cnt * lineCount t + 99) / 100 - 1 : Nat) →
      calculateMotion t ⟨"%", cnt, none, none⟩ idx = .thrown) ∧
    (∀ (t : List Char) (cnt idx : Nat), 101 ≤ cnt →
      calculateMotion t ⟨"%", cnt, none, none⟩ idx = .thrown) := by
  have main : ∀ (t : List Char) (cnt idx : Nat), cnt ≠ 0 →
      (lineCount t : Int) ≤ ((cnt * lineCount t + 99) / 100 - 1 : Nat) →
      calculateMotion t ⟨"%", cnt, none, none⟩ idx = .thrown := by
    intro t cnt idx h h2
    unfold calculateMotion
    simp only [reduceIte, String.reduceEq, or_self, if_false, h, ite_true, if_true,
      reduceCtorEq, ne_eq, not_false_eq_true]
    have hg : getLine t ((cnt * lineCount t + 99) / 100 - 1 : Nat) = none := by
      unfold getLine
      rw [if_neg]
      push_neg
      intro _
      omega
    rw [hg]
  refine ⟨main, fun t cnt idx hcnt => main t cnt idx (by omega) ?_⟩
  have hL : 1 ≤ lineCount t := by unfold lineCount; omega
  have hm : 101 * lineCount t ≤ cnt * lineCount t := Nat.mul_le_mul_right _ hcnt
  omega

/-- Witness for C9: `101%` on the one-line buffer `"a"` requests line 1 of
a one-line document and hits the error branch. -/
theorem C9_percent_count_unclamped_witness :
    calculateMotion "a".data ⟨"%", 101, none, none⟩ 0 = .thrown :=
  C9_percent_count_unclamped.2 "a".data 101 0 (by decide)

/-- C3: on the single-line buffer `"abc def"` with the cursor at index 0,
`d` enters OperatorPending mode and `w` completes the operator: the unnamed
register receives the charwise text `"abc "`, the buffer becomes `"def"`,
and the cursor stays at index 0. -/
theorem C3_dw_example :
    (getNormalCommand baseState "abc def".data 'd').2 =
      GncOut.act (VimAction.operatorAct 'd') ∧
    (keyOperatorPending (doNormalActionOperator baseState 'd') "abc def".data 0
        (Key.ch 'w')).vim.registers.lookup '"' = some ⟨false, "abc ".data⟩ ∧
    (keyOperatorPending (doNormalActionOperator baseState 'd') "abc def".data 0
        (Key.ch 'w')).text = "def".data ∧
    (keyOperatorPending (doNormalActionOperator baseState 'd') "abc def".data 0
        (Key.ch 'w')).cursor = some 0 := by
  decide

/-- The outer scan of the count-less `%` motion fails when no bracket
character occurs between the scan position and the next newline (or the
end of the buffer). -/
theorem pctOuter_eq_none (t : List Char) :
    ∀ (rest : List Char) (pos : Nat),
      (∀ c ∈ rest.takeWhile (fun c => c != '\n'), ¬(isOpenBracket c ∨ isCloseBracket c)) →
      pctOuter t pos rest = none := by
  intro rest
  induction rest with
  | nil => intro pos _; rfl
  | cons c cs ih =>
    intro pos h
    unfold pctOuter
    by_cases hnl : c = '\n'
    · simp [hnl]
    · have hc : ¬(isOpenBracket c ∨ isCloseBracket c) := by
        apply h
        simp [List.takeWhile_cons, hnl]
      push_neg at hc
      simp only [hnl, if_false, reduceIte, hc.1, hc.2, Bool.false_eq_true]
      exact ih (pos + 1)
        (fun c' hc' => h c' (by simp [List.takeWhile_cons, hnl]; exact .inr hc'))

/-- Counterexample to C5 as stated: on the buffer `"a\n()"` with the cursor
at index 0, a bracket character (`(` at index 2) occurs before the end of
the buffer and has a depth-balanced partner (`)` at index 3), yet the
count-less `%` motion yields null — the claim promises a range ending at
the partner whenever a matched bracket exists before the buffer end.  The
source scan stops at the end of the current line, not the buffer. -/
theorem C5_percent_counterexample :
    calculateMotion "a\n()".data ⟨"%", 0, none, none⟩ 0 = .nullMotion ∧
    "a\n()".data.get? 2 = some '(' ∧
    matchFwd '(' ')' ("a\n()".data.drop 3) 3 1 = some 3 := by
  decide

/-- C5 (amended): the count-less `%` motion scans forward from the cursor
for the nearest bracket character on the current line only — it returns
null when no bracket character occurs before the end of the current line
(or of the buffer) and when the found bracket is unmatched — and otherwise
returns an inclusive charwise range ending at the bracket's depth-balanced
matching partner; on `(a(b)c)` the outer `(` lands on the outer `)` and
vice versa, and an unmatched `(` yields no movement. -/
theorem C5_percent_bracket_amended :
    (∀ (t : List Char) (i : Nat),
      (∀ c ∈ (t.drop i).takeWhile (fun c => c != '\n'),
        ¬(isOpenBracket c ∨ isCloseBracket c)) →
      calculateMotion t ⟨"%", 0, none, none⟩ i = .nullMotion) ∧
    calculateMotion "(a(b)c)".data ⟨"%", 0, none, none⟩ 0 = .found ⟨0, 6, true, false⟩ ∧
    calculateMotion "(a(b)c)".data ⟨"%", 0, none, none⟩ 6 = .found ⟨6, 0, true, false⟩ ∧
    calculateMotion "(ab".data ⟨"%", 0, none, none⟩ 0 = .nullMotion := by
  refine ⟨?_, by decide, by decide, by decide⟩
  intro t i h
  unfold calculateMotion
  simp only [reduceIte, String.reduceEq, or_self, if_false, ite_true, if_true,
    reduceCtorEq, ne_eq, not_true_eq_false, not_false_eq_true]
  rw [pctOuter_eq_none t (t.drop i) i h]

/-- Witness for C5 (amended): no bracket on the line `"xyz"`, so `%` from
index 0 yields null. -/
theorem C5_percent_bracket_amended_witness :
    calculateMotion "xyz".data ⟨"%", 0, none, none⟩ 0 = .nullMotion :=
  C5_percent_bracket_amended.1 "xyz".data 0 (by decide)

/-- C7: `;` recomputes the last recorded `f/F/t/T` motion with its recorded
target, `,` recomputes it with the direction flipped; when the recomputed
motion is a `t`/`T` variant and would not move (start equals stop) it is
recomputed exactly once more with the count increased by one; `;`/`,` with
no prior line search yields null. -/
theorem C7_repeat_line_search (marks : List (Char × Option MarkPos)) (t : List Char)
    (idx : Nat) :
    (∀ (mk : String) (cnt : Nat), (mk = ";" ∨ mk = ",") →
      vimCalculateMotion marks none t ⟨mk, cnt, none, none⟩ idx = .nullMotion) ∧
    (∀ (ls : LineSearch) (mk lm : String) (cnt : Nat), (mk = ";" ∨ mk = ",") →
      (if mk = "," then flipSearch ls.motion else some ls.motion) = some lm →
      (((lm = "t" ∨ lm = "T") →
          ∀ mm, calculateMotion t ⟨lm, cnt, some ls.target, none⟩ idx = .found mm →
            ((mm.start = mm.stop →
               vimCalculateMotion marks (some ls) t ⟨mk, cnt, none, none⟩ idx =
                 calculateMotion t ⟨lm, cnt + 1, some ls.target, none⟩ idx) ∧
             (mm.start ≠ mm.stop →
               vimCalculateMotion marks (some ls) t ⟨mk, cnt, none, none⟩ idx = .found mm))) ∧
       ((lm ≠ "t" ∧ lm ≠ "T") →
          vimCalculateMotion marks (some ls) t ⟨mk, cnt, none, none⟩ idx =
            calculateMotion t ⟨lm, cnt, some ls.target, none⟩ idx))) := by
  constructor
  · rintro mk cnt (rfl | rfl) <;> simp [vimCalculateMotion]
  · rintro ls mk lm cnt hmk hlm
    rcases hmk with rfl | rfl
    · simp only [String.reduceEq, reduceIte] at hlm
      obtain rfl : ls.motion = lm := Option.some.inj hlm
      simp only [vimCalculateMotion, String.reduceEq, or_self, or_false, false_or, or_true,
        true_or, if_false, if_true, reduceIte]
      constructor
      · rintro hlt mm hmm
        rw [if_pos hlt, hmm]
        constructor <;> intro hse
        · exact if_pos hse
        · exact if_neg hse
      · rintro ⟨h1, h2⟩
        rw [if_neg (by simp [h1, h2])]
    · simp only [String.reduceEq, reduceIte] at hlm
      simp only [vimCalculateMotion, String.reduceEq, or_self, or_false, false_or, or_true,
        true_or, if_false, if_true, reduceIte]
      simp only [hlm]
      constructor
      · rintro hlt mm hmm
        rw [if_pos hlt, hmm]
        constructor <;> intro hse
        · exact if_pos hse
        · exact if_neg hse
      · rintro ⟨h1, h2⟩
        rw [if_neg (by simp [h1, h2])]

/-- Witness for C7: on `"ab"` at index 0 with last search `t b` (which
would not move), `;` recomputes `t b` with count 2. -/
theorem C7_repeat_line_search_witness :
    vimCalculateMotion [] (some ⟨"t", 'b'⟩) "ab".data ⟨";", 1, none, none⟩ 0 =
      calculateMotion "ab".data ⟨"t", 2, some 'b', none⟩ 0 :=
  (((C7_repeat_line_search [] "ab".data 0).2 ⟨"t", 'b'⟩ ";" "t" 1 (Or.inl rfl)
    (by decide)).1 (Or.inl rfl) ⟨0, 0, true, false⟩ (by decide)).1 rfl

/-- The key parser never writes a register: every branch of
`getNormalCommand` leaves `registers` untouched. -/
theorem gnc_preserves_registers (s : VimState) (t : List Char) (c : Char) :
    (getNormalCommand s t c).1.registers = s.registers := by
  unfold getNormalCommand getNormalCommandTail resetState setModeReset
  simp only [apply_ite (fun (p : VimState × GncOut) => p.1.registers),
    apply_ite (fun (v : VimState) => v.registers), ite_self]

/-- C1: with an operator (`c`, `d` or `y`) pending, a key that completes a
motion or a text object whose calculator returns null abandons the
operator — the buffer is unchanged, no register is written, and the mode is
reset to Normal. -/
theorem C1_null_calculator_abandons (s : VimState) (t : List Char) (cursor : Nat)
    (c : Char) (op : Char)
    (hmode : s.mode = VimMode.OperatorPending)
    (hop : s.operatorPending = some op)
    (hcdy : op = 'c' ∨ op = 'd' ∨ op = 'y')
    (h : (∃ m, (getNormalCommand s t c).2 = .act (.motionAct m) ∧
           vimCalculateMotion (getNormalCommand s t c).1.marks
             (getNormalCommand s t c).1.lastLineSearch t
             (adjustMotionCommand (getNormalCommand s t c).1.enteredCount
               (getNormalCommand s t c).1.operatorCount
               (getNormalCommand s t c).1.operatorPending m) cursor = .nullMotion) ∨
         (∃ o, (getNormalCommand s t c).2 = .act (.objectAct o) ∧
           calculateObject t o cursor = .nullObj)) :
    (keyOperatorPending s t cursor (.ch c)).text = t ∧
    (keyOperatorPending s t cursor (.ch c)).vim.registers = s.registers ∧
    (keyOperatorPending s t cursor (.ch c)).vim.mode = VimMode.Normal := by
  rcases h with ⟨m, hcmd, hnull⟩ | ⟨o, hcmd, hnull⟩
  · unfold keyOperatorPending
    simp only [hcmd]
    unfold opExecuteMotion
    simp only [hnull]
    simp [resetState, setModeReset, gnc_preserves_registers]
  · unfold keyOperatorPending
    simp only [hcmd, hnull]
    simp [resetState, setModeReset, gnc_preserves_registers]

/-- Witness for C1: pending `d` with a pending `f` search; the key `z`
completes the motion `fz` on `"abc"`, where no `z` occurs — the operator
is abandoned with no mutation, no register write, and a reset to Normal. -/
theorem C1_null_calculator_abandons_witness :
    (keyOperatorPending
        { baseState with
            mode := .OperatorPending
            operatorPending := some 'd'
            pseudoMode := some 'f'
            pseudoModeParameter := some 'f' }
        "abc".data 0 (.ch 'z')).text = "abc".data ∧
    (keyOperatorPending
        { baseState with
            mode := .OperatorPending
            operatorPending := some 'd'
            pseudoMode := some 'f'
            pseudoModeParameter := some 'f' }
        "abc".data 0 (.ch 'z')).vim.registers = [] ∧
    (keyOperatorPending
        { baseState with
            mode := .OperatorPending
            operatorPending := some 'd'
            pseudoMode := some 'f'
            pseudoModeParameter := some 'f' }
        "abc".data 0 (.ch 'z')).vim.mode = VimMode.Normal :=
  C1_null_calculator_abandons
    { baseState with
        mode := .OperatorPending
        operatorPending := some 'd'
        pseudoMode := some 'f'
        pseudoModeParameter := some 'f' }
    "abc".data 0 'z' 'd' rfl rfl (Or.inr (Or.inl rfl))
    (Or.inl ⟨{ motion := "f", count := 1, targetChar := some 'z', targetIdx := none },
      by decide, by decide⟩)

/-- C2: when an operator entered with count `n` is completed by a motion
entered with count `m`, the motion handed to the calculator carries total
count `m * n` (each factor defaulting to 1 when its digit accumulator is
empty), except that `G`, `gg` and `%` receive count 0 when neither count
was typed.  (The source also maps `cw`/`cW` to `ce`/`cE` at the same
point, reflected in the motion field.) -/
theorem C2_count_composition (s : VimState) (t : List Char) (cursor : Nat) (c : Char)
    (m : MotionAction) (hmode : s.mode = VimMode.OperatorPending)
    (hcmd : (getNormalCommand s t c).2 = .act (.motionAct m)) :
    keyOperatorPending s t cursor (.ch c) =
      opExecuteMotion (getNormalCommand s t c).1 t cursor
        { m with
          motion :=
            if (getNormalCommand s t c).1.operatorPending = some 'c' then
              if m.motion = "w" then "e" else if m.motion = "W" then "E" else m.motion
            else m.motion
          count :=
            if (m.motion = "G" ∨ m.motion = "gg" ∨ m.motion = "%") ∧
                (getNormalCommand s t c).1.enteredCount = "" ∧
                (getNormalCommand s t c).1.operatorCount = "" then 0
            else countOr (getNormalCommand s t c).1.enteredCount 1 *
                 countOr (getNormalCommand s t c).1.operatorCount 1 } := by
  unfold keyOperatorPending
  simp only [hcmd, adjustMotionCommand]

/-- Witness for C2: `2d3w` — operator count 3, motion count 2 — calculates
`w` with total count 6. -/
theorem C2_count_composition_witness :
    keyOperatorPending
        { baseState with
            mode := .OperatorPending
            operatorPending := some 'd'
            enteredCount := "2"
            operatorCount := "3" }
        "a b c d e f g h".data 0 (.ch 'w') =
      opExecuteMotion
        { baseState with
            mode := .OperatorPending
            operatorPending := some 'd'
            enteredCount := "2"
            operatorCount := "3" }
        "a b c d e f g h".data 0
        { motion := "w", count := 6, targetChar := none, targetIdx := none } :=
  (C2_count_composition
    { baseState with
        mode := .OperatorPending
        operatorPending := some 'd'
        enteredCount := "2"
        operatorCount := "3" }
    "a b c d e f g h".data 0 'w'
    { motion := "w", count := 2, targetChar := none, targetIdx := none }
    rfl (by decide)).trans (by decide)

/-- A singleton match list lands whole in the first label group `A`. -/
theorem lookupA_single (idx : Nat) : (setToLetterGroups [idx]).lookup 'A' = some [idx] := by
  simp [setToLetterGroups, pickEvery, List.range_succ, List.enum]

/-- Counterexample to C6 as stated: starting jump mode with search
character `a` on `"xay"`, which has exactly one case-insensitive
occurrence (index 1), resolves no action on the start key — the claim
promises an immediate jump motion. -/
theorem C6_jump_counterexample :
    matchIndices "xay".data 'A' = [1] ∧
    (jumpKey none "xay".data 'a').action = none := by
  decide

/-- C6 (amended): when jump mode is started with a search character that
has exactly one case-insensitive occurrence, the start key resolves no
action; the single occurrence is assigned to label `A` (the remaining
labels are empty), and the engine resolves to a jump motion targeting the
occurrence's absolute index on the next key when it names label `A`. -/
theorem C6_jump_single_match_amended (t : List Char) (c : Char) (idx : Nat)
    (h : matchIndices t c.toUpper = [idx]) :
    (jumpKey none t c).action = none ∧
    (jumpKey none t c).indexSet = some (setToLetterGroups [idx]) ∧
    (setToLetterGroups [idx]).lookup 'A' = some [idx] ∧
    (jumpKey (some (setToLetterGroups [idx])) t 'A').action =
      some { motion := "jump", count := 1, targetChar := none, targetIdx := some idx } := by
  refine ⟨rfl, ?_, lookupA_single idx, ?_⟩
  · simp only [jumpKey]
    rw [h]
  · simp only [jumpKey, show ('A' : Char).toUpper = 'A' from by decide, lookupA_single idx]

/-- Witness for C6 (amended) on `"xay"` with search character `a`. -/
theorem C6_jump_single_match_amended_witness :
    (jumpKey none "xay".data 'a').action = none ∧
    (jumpKey none "xay".data 'a').indexSet = some (setToLetterGroups [1]) ∧
    (setToLetterGroups [1]).lookup 'A' = some [1] ∧
    (jumpKey (some (setToLetterGroups [1])) "xay".data 'A').action =
      some { motion := "jump", count := 1, targetChar := none, targetIdx := some 1 } :=
  C6_jump_single_match_amended "xay".data 'a' 1 (by decide)

/-- The total per-mark effect of one normalized change in the second pass:
what `translateEntryOpt` computes when no translation can throw. -/
def shiftMark (ch : VChange) (v : Option MarkPos) : Option MarkPos :=
  match v with
  | none => none
  | some p =>
    if posLt p ch.rs ∨ posLt p ch.re then some p
    else some ⟨((p.line : Int) + netLines ch).toNat, p.col⟩

/-- Association-list lookup commutes with a value-only map. -/
theorem lookup_map_snd (g : Option MarkPos → Option MarkPos) (c : Char) :
    ∀ (l : List (Char × Option MarkPos)),
      (l.map (fun e => (e.1, g e.2))).lookup c = (l.lookup c).map g := by
  intro l
  induction l with
  | nil => rfl
  | cons e l ih =>
    cases hbeq : (c == e.1) <;> simp [List.lookup, hbeq, ih]

/-- For a normalized change (`rs ≤ re`), the second-pass translation of a
single mark value never throws and computes `shiftMark`. -/
theorem translateEntryOpt_total (ch : VChange) (hn : posLe ch.rs ch.re = true)
    (v : Option MarkPos) : translateEntryOpt ch v = some (shiftMark ch v) := by
  cases v with
  | none => rfl
  | some p =>
    unfold translateEntryOpt shiftMark
    by_cases hk : posLt p ch.rs = true ∨ posLt p ch.re = true
    · simp [hk]
    · push_neg at hk
      have hrs : ch.rs.line ≤ ch.re.line := by
        simp [posLe] at hn; omega
      have hre : ch.re.line ≤ p.line := by
        have := hk.2
        simp [posLt] at this; omega
      have habs : (((ch.re.line : Int) - ch.rs.line).natAbs : Int) =
          (ch.re.line : Int) - ch.rs.line := by omega
      have hpos : ¬((p.line : Int) + netLines ch < 0) := by
        unfold netLines; omega
      simp only [hk.1, hk.2, or_self, if_false, Bool.false_eq_true, reduceIte,
        translateMark, hpos]
      rfl

/-- The second pass over a whole mark map succeeds for a normalized
change. -/
theorem mapM_translate (ch : VChange) (hn : posLe ch.rs ch.re = true) :
    ∀ l : List (Char × Option MarkPos),
      (l.mapM (fun e => (translateEntryOpt ch e.2).map (fun v => (e.1, v)))) =
        some (l.map (fun e => (e.1, shiftMark ch e.2))) := by
  have hfun : ∀ (e : Char × Option MarkPos),
      (translateEntryOpt ch e.2).map (fun v => (e.1, v)) = some (e.1, shiftMark ch e.2) := by
    intro e; rw [translateEntryOpt_total ch hn]; rfl
  intro l
  induction l with
  | nil => rfl
  | cons e l ih =>
    rw [List.mapM_cons, hfun e, ih]
    rfl

/-- C4: on a buffer-change notification with one normalized edit, a stored
mark inside the replaced range (endpoints inclusive) is invalidated; a mark
strictly after the range is translated by the net line delta — inserted
newlines minus the line span of the replaced range — and a mark strictly
before the range is unchanged. -/
theorem C4_mark_maintenance (ch : VChange) (marks : List (Char × Option MarkPos))
    (c : Char) (p : MarkPos) (hnorm : posLe ch.rs ch.re = true)
    (hmark : marks.lookup c = some (some p)) :
    ∃ ms', documentChanged [ch] marks = some ms' ∧
      (rangeContains ch.rs ch.re p = true → ms'.lookup c = some none) ∧
      (posLt p ch.rs = true → ms'.lookup c = some (some p)) ∧
      (posLt ch.re p = true →
        ms'.lookup c = some (some ⟨((p.line : Int) + (ch.text.count '\n' : Int)
          - ((ch.re.line : Int) - ch.rs.line)).toNat, p.col⟩)) := by
  refine ⟨(marks.map (fun e => (e.1, invalMark ch e.2))).map
      (fun e => (e.1, shiftMark ch e.2)), ?_, ?_, ?_, ?_⟩
  · unfold documentChanged marksInvalidate marksTranslate
    simp only [List.foldl_cons, List.foldl_nil, List.foldlM_cons, List.foldlM_nil,
      mapM_translate ch hnorm]
    rfl
  · intro hin
    rw [lookup_map_snd, lookup_map_snd, hmark]
    simp [invalMark, hin, shiftMark]
  · intro hlt
    have hnotin : rangeContains ch.rs ch.re p = false := by
      simp [rangeContains, posLe]
      simp [posLt] at hlt
      omega
    rw [lookup_map_snd, lookup_map_snd, hmark]
    simp [invalMark, hnotin, shiftMark, hlt]
  · intro hgt
    have hnotin : rangeContains ch.rs ch.re p = false := by
      simp [rangeContains, posLe]
      simp [posLt] at hgt
      intro h1
      omega
    have h2 : posLt p ch.rs = false := by
      simp [posLt] at hgt ⊢
      simp [posLe] at hnorm
      omega
    have h3 : posLt p ch.re = false := by
      simp [posLt] at hgt ⊢
      omega
    have hrs : ch.rs.line ≤ ch.re.line := by simp [posLe] at hnorm; omega
    have hre : ch.re.line ≤ p.line := by
      simp [posLt] at hgt; omega
    have habs : (((ch.re.line : Int) - ch.rs.line).natAbs : Int) =
        (ch.re.line : Int) - ch.rs.line := by omega
    rw [lookup_map_snd, lookup_map_snd, hmark]
    simp [invalMark, hnotin, shiftMark, h2, h3]
    unfold netLines
    omega

/-- Witness for C4: an edit replacing lines 1-2 with two inserted newlines
translates a mark on line 5 to line 6 (net delta `2 - 1 = 1`). -/
theorem C4_mark_maintenance_witness :
    ∃ ms', documentChanged [⟨⟨1, 2⟩, ⟨2, 3⟩, "x\ny\n".data⟩]
        [('a', some (⟨5, 0⟩ : MarkPos))] = some ms' ∧
      (rangeContains (⟨1, 2⟩ : MarkPos) ⟨2, 3⟩ ⟨5, 0⟩ = true → ms'.lookup 'a' = some none) ∧
      (posLt (⟨5, 0⟩ : MarkPos) ⟨1, 2⟩ = true → ms'.lookup 'a' = some (some ⟨5, 0⟩)) ∧
      (posLt (⟨2, 3⟩ : MarkPos) ⟨5, 0⟩ = true →
        ms'.lookup 'a' = some (some ⟨(((5 : Nat) : Int) + (("x\ny\n".data.count '\n' : Nat) : Int)
          - (((2 : Nat) : Int) - ((1 : Nat) : Int))).toNat, 0⟩)) :=
  C4_mark_maintenance ⟨⟨1, 2⟩, ⟨2, 3⟩, "x\ny\n".data⟩
    [('a', some ⟨5, 0⟩)] 'a' ⟨5, 0⟩ (by decide) (by decide)

/-- The start of the line containing `i` never exceeds `i`. -/
theorem lineStart_le (t : List Char) : ∀ i : Nat, lineStart t i ≤ i := by
  intro i
  induction i with
  | zero => exact le_rfl
  | succ j ih =>
    unfold lineStart
    split
    · exact le_rfl
    · exact Nat.le_succ_of_le ih

/-- C8: for every buffer and every cursor index, `h` with count `n`
followed by `l` with count `n` returns the cursor to its original absolute
index, provided neither motion is clamped at a line boundary (`h` is
unclamped when `n` is at most the cursor column; `l` is unclamped when its
target column stays strictly inside the line). -/
theorem C8_h_then_l_round_trip (t : List Char) (i n : Nat)
    (hh : n ≤ (positionFromIndex t i).col)
    (hl : ((positionFromIndex t (i - n)).col : Int) + n <
      ((getLineByIndex t (i - n)).len : Int)) :
    calculateMotion t ⟨"h", n, none, none⟩ i = .found ⟨i, (i : Int) - n, false, false⟩ ∧
    calculateMotion t ⟨"l", n, none, none⟩ (i - n) =
      .found ⟨((i - n : Nat) : Int), ((i - n : Nat) : Int) + n, false, false⟩ ∧
    ((i - n : Nat) : Int) + n = (i : Int) := by
  have hni : n ≤ i := by
    have h1 : (positionFromIndex t i).col = (min i t.length) - lineStart t (min i t.length) := rfl
    have h2 := lineStart_le t (min i t.length)
    omega
  refine ⟨?_, ?_, by omega⟩
  · unfold calculateMotion
    simp only [reduceIte, String.reduceEq, or_self, if_false, ite_true, if_true, ge_iff_le, hh]
  · unfold calculateMotion
    simp only [reduceIte, String.reduceEq, or_self, if_false, ite_true, if_true, hl]

/-- Witness for C8: on `"abc"` from index 2 with count 1, `h` lands at 1
and `l` returns to 2. -/
theorem C8_h_then_l_round_trip_witness :
    calculateMotion "abc".data ⟨"h", 1, none, none⟩ 2 =
      .found ⟨2, (2 : Int) - 1, false, false⟩ ∧
    calculateMotion "abc".data ⟨"l", 1, none, none⟩ (2 - 1) =
      .found ⟨((2 - 1 : Nat) : Int), ((2 - 1 : Nat) : Int) + 1, false, false⟩ ∧
    ((2 - 1 : Nat) : Int) + 1 = ((2 : Nat) : Int) :=
  C8_h_then_l_round_trip "abc".data 2 1 (by decide) (by decide)

end Vimish
